import Mathlib

/-!
Shallow embedding of the stepper-motor test-console firmware
(`acisaldinamik/acisaldinamik.ino`) and proofs about its specification.

Modelling conventions:
* C `float` arithmetic is modelled by exact rational arithmetic (`ℚ`);
  the `(uint32_t)` cast of a nonnegative value is modelled by `qfloor`
  (truncation toward zero coincides with the floor on nonnegative values).
* AVR (Arduino Mega) machine integers: `int` is 16 bits and `long` is
  32 bits; `atoi`/`atol` results wrap accordingly (`wrap16`, `wrap32`).
* The volatile flag `abortRequested` read inside the blocking pulse loop
  is modelled by an abort schedule `a : ℕ → Bool`: `a t` is the value the
  flag holds at the t-th read of the flag after the move begins.
* Serial output lines are modelled by the inductive event type `Ev`;
  emitted pulses appear in the same trace as `Ev.pulse` events.
-/

/-- Floor of a rational, as a natural number. Models the C `(uint32_t)`
cast (truncation toward zero) for the nonnegative values that occur in
the firmware, and `lroundf` composed with `+ 1/2` (see `qround`). -/
def qfloor (q : ℚ) : ℕ := (⌊q⌋).toNat

/-- Round-half-up of a nonnegative rational, modelling `lroundf`
(round half away from zero, which agrees with half-up on nonnegatives). -/
def qround (q : ℚ) : ℕ := qfloor (q + 1/2)

/-- The mutable global state of the firmware: per-axis steps/rev,
session settings, the shared abort/moving flags, and the ENA/DIR output
pin levels of the five axes (`true` = HIGH; ENA LOW = driver enabled). -/
structure FirmwareState where
  stepsPerRev : List ℕ
  aktifMotor : ℕ
  setAngleDeg : ℚ
  setSpeedDPS : ℚ
  pauseMs : ℕ
  repeats : ℕ
  rampMs : ℕ
  abortRequested : Bool
  movingMotor : ℕ
  enaHigh : List Bool
  dirHigh : List Bool
  deriving DecidableEq, Repr

/-- Observable events: serial status lines and physical step pulses. -/
inductive Ev where
  | movingStart (m : ℕ)
  | pulse (m delayUs : ℕ)
  | movingEnd (m : ℕ)
  | helpMsg
  | showMsg
  | motorSel (m : ℕ)
  | abortMsg
  | enaOnMsg (m : ℕ)
  | enaOffMsg (m : ℕ)
  | enaAllMsg (isOn : Bool)
  | stopMMsg (m : ℕ)
  | stopAllMsg
  | statusMsg (m : ℕ) (ena moving : Bool)
  | angleMsg (v : ℚ)
  | speedMsg (v : ℚ)
  | sprMsg (m v : ℕ)
  | rampMsg (v : ℕ)
  | pauseMsg (v : ℕ)
  | repMsg (v : ℕ)
  | unknownMsg
  deriving DecidableEq, Repr

/-- State right after `setup()`: defaults from the global initializers,
all ENA pins driven LOW (enabled), all DIR/PUL pins LOW. -/
def initialState : FirmwareState :=
  { stepsPerRev := [1600, 1600, 1600, 1600, 1600]
    aktifMotor := 1
    setAngleDeg := 15
    setSpeedDPS := 90
    pauseMs := 500
    repeats := 1
    rampMs := 0
    abortRequested := false
    movingMotor := 0
    enaHigh := [false, false, false, false, false]
    dirHigh := [false, false, false, false, false] }

/-- `stepsPerRev[m-1]` of the firmware (motor numbers are 1-based). -/
def sprOf (st : FirmwareState) (m : ℕ) : ℕ := st.stepsPerRev.getD (m - 1) 0

/-- `degToSteps`: `lroundf(fabs(deg) * stepsPerRev[m-1] / 360)`,
floored at 0 (the result is already nonnegative). -/
def degToSteps (st : FirmwareState) (m : ℕ) (deg : ℚ) : ℕ :=
  qround (|deg| * ((sprOf st m : ℚ) / 360))

/-- `directionFor`: positive (or zero) angle means forward (DIR HIGH). -/
def directionFor (deg : ℚ) : Bool := decide (0 ≤ deg)

/-- `dpsToDelayUs`: degrees/second to a per-step period in µs.
Values `≤ 0` become 1 dps; steps/second is floored at 1; the period is
floored at 2 µs; the final `(uint32_t)` cast truncates. -/
def dpsToDelayUs (spr : ℕ) (dps : ℚ) : ℕ :=
  let dps1 : ℚ := if dps ≤ 0 then 1 else dps
  let sps : ℚ := dps1 * ((spr : ℚ) / 360)
  let sps1 : ℚ := if sps < 1 then 1 else sps
  let per : ℚ := 1000000 / sps1
  let per1 : ℚ := if per < 2 then 2 else per
  qfloor per1

/-- Unclamped ramp step count:
`(uint32_t)max(1.0f, (spsTarget * (rampMs/1000)) * 0.5f)` with
`spsTarget = 1e6 / tgtDelayUs`. -/
def rampStepsRaw (tgt rampMs : ℕ) : ℕ :=
  let spsT : ℚ := 1000000 / (tgt : ℚ)
  let raw : ℚ := spsT * ((rampMs : ℚ) / 1000) * (1/2)
  qfloor (max 1 raw)

/-- Ramp step count after the `rampSteps * 2 > totalSteps` clamp. -/
def rampStepsClamped (total tgt rampMs : ℕ) : ℕ :=
  let rs := rampStepsRaw tgt rampMs
  if rs * 2 > total then total / 2 else rs

/-- `startDelayUs`: `(uint32_t)(tgtDelayUs * 1.5f)`, raised to
`tgtDelayUs + 2` when smaller. -/
def startDelayUs (tgt : ℕ) : ℕ :=
  let s := qfloor ((tgt : ℚ) * (3/2))
  if s < tgt + 2 then tgt + 2 else s

/-- One interpolated per-step delay of a ramp segment:
`(uint32_t)(a + t * ((int)b - (int)a))` with `t = i/(rs-1)`
(`t = 1` when `rs ≤ 1`). -/
def interpDelay (rs a b i : ℕ) : ℕ :=
  let t : ℚ := if rs ≤ 1 then 1 else (i : ℚ) / ((rs : ℚ) - 1)
  qfloor ((a : ℚ) + t * ((b : ℚ) - (a : ℚ)))

/-- The acceleration segment: `rs` delays from `sd` down to `tgt`. -/
def accelList (rs sd tgt : ℕ) : List ℕ :=
  (List.range rs).map (interpDelay rs sd tgt)

/-- The deceleration segment: `rs` delays from `tgt` up to `sd`. -/
def decelList (rs sd tgt : ℕ) : List ℕ :=
  (List.range rs).map (interpDelay rs tgt sd)

/-- The per-step delay plan of one move, split into the loop segments of
`moveWithProfile`: one constant segment when `rampMs == 0` or
`totalSteps < 10`, otherwise acceleration / cruise / deceleration. -/
def profileSegments (total tgt rampMs : ℕ) : List (List ℕ) :=
  if rampMs = 0 ∨ total < 10 then [List.replicate total tgt]
  else
    let rs := rampStepsClamped total tgt rampMs
    let sd := startDelayUs tgt
    [accelList rs sd tgt, List.replicate (total - (rs + rs)) tgt,
     decelList rs sd tgt]

/-- The flat per-step delay sequence of one move. -/
def motionProfile (total tgt rampMs : ℕ) : List ℕ :=
  (profileSegments total tgt rampMs).flatten

/-- One `for`-loop of `moveWithProfile`: before each pulse the loop reads
`abortRequested` (value `a t` at the t-th read) and breaks when it is
set. Returns the delays actually pulsed and the next read index. -/
def runSeg (a : ℕ → Bool) : ℕ → List ℕ → List ℕ × ℕ
  | t, [] => ([], t)
  | t, d :: ds =>
    if a t then ([], t + 1)
    else
      let r := runSeg a (t + 1) ds
      (d :: r.1, r.2)

/-- The consecutive pulse loops of `moveWithProfile`, run in order. -/
def runSegs (a : ℕ → Bool) : ℕ → List (List ℕ) → List ℕ × ℕ
  | t, [] => ([], t)
  | t, seg :: rest =>
    let r1 := runSeg a t seg
    let r2 := runSegs a r1.2 rest
    (r1.1 ++ r2.1, r2.2)

/-- `moveWithProfile(m, deg, dps, rampMs)`: the motion executor.
Zero computed steps returns immediately with no side effect; otherwise
it writes DIR, enables the driver, sets `movingMotor = m`, clears
`abortRequested`, prints `MOVING Mm START`, pulses through the profile
(checking the abort flag before every pulse), then sets
`movingMotor = 0` and prints `MOVING Mm END`. Returns the new state,
the event trace, and the next abort-read index. -/
def moveWithProfile (a : ℕ → Bool) (st : FirmwareState) (m : ℕ)
    (deg dps : ℚ) (rampMs : ℕ) (t0 : ℕ) :
    FirmwareState × List Ev × ℕ :=
  let total := degToSteps st m deg
  if total = 0 then (st, [], t0)
  else
    let st1 : FirmwareState :=
      { st with dirHigh := st.dirHigh.set (m - 1) (directionFor deg)
                enaHigh := st.enaHigh.set (m - 1) false
                movingMotor := m
                abortRequested := false }
    let tgt := dpsToDelayUs (sprOf st m) dps
    let r := runSegs a t0 (profileSegments total tgt rampMs)
    let st2 : FirmwareState := { st1 with movingMotor := 0, abortRequested := a r.2 }
    (st2, Ev.movingStart m :: (r.1.map (Ev.pulse m) ++ [Ev.movingEnd m]), r.2)

/-- The abort schedule of an undisturbed run: the flag is never set. -/
def neverAbort : ℕ → Bool := fun _ => false

/-- Number of physical pulses in an event trace. -/
def countPulses (tr : List Ev) : ℕ :=
  (tr.filter fun e => match e with | Ev.pulse _ _ => true | _ => false).length

/-- `doForward` / `doBackward` pair of the `Q` command: `repeats` rounds
of a forward move of `|setAngleDeg|` followed by a backward move (the
`delay(pauseMs)` waits produce no events and read no flags). -/
def qLoop (a : ℕ → Bool) : ℕ → FirmwareState → ℕ →
    FirmwareState × List Ev × ℕ
  | 0, st, t => (st, [], t)
  | k + 1, st, t =>
    let r1 := moveWithProfile a st st.aktifMotor |st.setAngleDeg|
      st.setSpeedDPS st.rampMs t
    let r2 := moveWithProfile a r1.1 r1.1.aktifMotor (-|r1.1.setAngleDeg|)
      r1.1.setSpeedDPS r1.1.rampMs r1.2.2
    let r3 := qLoop a k r2.1 r2.2.2
    (r3.1, r1.2.1 ++ r2.2.1 ++ r3.2.1, r3.2.2)

/-- The repeat loop of the `TEST` command: before the forward move and
between forward and backward the stored abort flag is read once more
(each read consumes one index of the schedule). -/
def testLoop (a : ℕ → Bool) (m : ℕ) (deg dps : ℚ) (rampMs : ℕ) :
    ℕ → FirmwareState → ℕ → FirmwareState × List Ev × ℕ
  | 0, st, t => (st, [], t)
  | k + 1, st, t =>
    if a t then (st, [], t + 1)
    else
      let r1 := moveWithProfile a st m |deg| dps rampMs (t + 1)
      if a r1.2.2 then (r1.1, r1.2.1, r1.2.2 + 1)
      else
        let r2 := moveWithProfile a r1.1 m (-|deg|) dps rampMs (r1.2.2 + 1)
        let r3 := testLoop a m deg dps rampMs k r2.1 r2.2.2
        (r3.1, r1.2.1 ++ r2.2.1 ++ r3.2.1, r3.2.2)

/-- Body of an accepted `MOVE m deg dps` line: selects motor `m`, clears
the abort flag, and performs a single profiled move with the session's
current `rampMs`. -/
def execMove (a : ℕ → Bool) (st : FirmwareState) (m : ℕ) (deg dps : ℚ) :
    FirmwareState × List Ev × ℕ :=
  moveWithProfile a { st with aktifMotor := m, abortRequested := false }
    m deg dps st.rampMs 0

/-- Body of an accepted `TEST m deg dps rep pause` line: selects motor
`m`, clears the abort flag, and runs `rep` abort-checked forward/backward
pairs with the session's current `rampMs`. -/
def execTest (a : ℕ → Bool) (st : FirmwareState) (m : ℕ) (deg dps : ℚ)
    (rep : ℕ) : FirmwareState × List Ev × ℕ :=
  testLoop a m deg dps st.rampMs rep
    { st with aktifMotor := m, abortRequested := false } 0

/-- The whitespace set of `isspace` (used by `String::trim`). -/
def ardIsSpace (c : Char) : Bool :=
  c = ' ' ∨ c = '\t' ∨ c = '\n' ∨ c = '\x0b' ∨ c = '\x0c' ∨ c = '\r'

/-- `String::toUpperCase` on one ASCII character. -/
def ardToUpper (c : Char) : Char :=
  if 'a' ≤ c ∧ c ≤ 'z' then Char.ofNat (c.toNat - 32) else c

/-- `String::trim`: strip leading and trailing whitespace. -/
def arduinoTrim (l : List Char) : List Char :=
  ((l.dropWhile ardIsSpace).reverse.dropWhile ardIsSpace).reverse

/-- The `strtok` delimiter set `" ,\t"`. -/
def isDelim (c : Char) : Bool := c = ' ' ∨ c = ',' ∨ c = '\t'

/-- Accumulator form of `strtok` splitting: `acc` holds the reversed
characters of the token currently being read. -/
def tokenizeAux : List Char → List Char → List (List Char)
  | [], acc => if acc = [] then [] else [acc.reverse]
  | c :: cs, acc =>
    if isDelim c then
      if acc = [] then tokenizeAux cs [] else acc.reverse :: tokenizeAux cs []
    else tokenizeAux cs (c :: acc)

/-- The sequence of `strtok(…, " ,\t")` tokens of a line. -/
def tokenize (l : List Char) : List (List Char) := tokenizeAux l []

/-- Value of a leading run of decimal digits, accumulated left to right
(this is exactly how the AVR libc conversion routines accumulate, so
overflow wraps the final value). -/
def digitsVal : List Char → ℕ → ℕ
  | [], n => n
  | c :: cs, n => if c.isDigit then digitsVal cs (n * 10 + (c.toNat - 48)) else n

/-- The mathematically exact integer denoted by the leading integer
literal of a token (optional whitespace, optional sign, digits). -/
def rawInt (l : List Char) : ℤ :=
  let l1 := l.dropWhile ardIsSpace
  match l1 with
  | '-' :: rest => -(digitsVal rest 0 : ℤ)
  | '+' :: rest => (digitsVal rest 0 : ℤ)
  | _ => (digitsVal l1 0 : ℤ)

/-- Wrap an integer into the 16-bit two's-complement range of an AVR
`int`. -/
def wrap16 (z : ℤ) : ℤ :=
  let r := z % 65536
  if r ≥ 32768 then r - 65536 else r

/-- Wrap an integer into the 32-bit two's-complement range of an AVR
`long`. -/
def wrap32 (z : ℤ) : ℤ :=
  let r := z % 4294967296
  if r ≥ 2147483648 then r - 4294967296 else r

/-- `atoi` on AVR: 16-bit `int` result, overflow wraps. -/
def atoi16 (l : List Char) : ℤ := wrap16 (rawInt l)

/-- `atol` on AVR: 32-bit `long` result, overflow wraps. -/
def atol32 (l : List Char) : ℤ := wrap32 (rawInt l)

/-- The `(uint32_t)` cast of an AVR `long`. -/
def toUInt32n (z : ℤ) : ℕ := (z % 4294967296).toNat

/-- `atof`: sign, integer digits, optional fraction, optional decimal
exponent, modelled exactly over `ℚ`. -/
def atofQ (l : List Char) : ℚ :=
  let l1 := l.dropWhile ardIsSpace
  let sgn : ℚ × List Char :=
    match l1 with
    | '-' :: rest => (-1, rest)
    | '+' :: rest => (1, rest)
    | _ => (1, l1)
  let ip := sgn.2.takeWhile Char.isDigit
  let l2 := sgn.2.dropWhile Char.isDigit
  let fr : List Char × List Char :=
    match l2 with
    | '.' :: rest => (rest.takeWhile Char.isDigit, rest.dropWhile Char.isDigit)
    | _ => ([], l2)
  let mant : ℚ :=
    (digitsVal ip 0 : ℚ) + (digitsVal fr.1 0 : ℚ) / ((10 : ℚ) ^ fr.1.length)
  let ex : ℤ :=
    match fr.2 with
    | 'e' :: rest => rawInt rest
    | 'E' :: rest => rawInt rest
    | _ => 0
  sgn.1 * mant * (10 : ℚ) ^ ex

/-- The `STOP [m]` branch: with a token whose value is in `[1,5]` the
axis is disabled (and, when it is the moving one, abort is requested);
with an out-of-range token nothing at all happens; with no token the
abort-all form runs. -/
def stopAction (st : FirmwareState) (args : List (List Char)) :
    FirmwareState × List Ev :=
  match args.head? with
  | some tok =>
    let m := atoi16 tok
    if 1 ≤ m ∧ m ≤ 5 then
      let mn := m.toNat
      let st1 := if st.movingMotor = mn then
        { st with abortRequested := true, movingMotor := 0 } else st
      ({ st1 with enaHigh := st1.enaHigh.set (mn - 1) true }, [Ev.stopMMsg mn])
    else (st, [])
  | none =>
    ({ st with abortRequested := true
               enaHigh := List.replicate 5 true
               movingMotor := 0 }, [Ev.stopAllMsg])

/-- The `ENA [m] ON|OFF` branch: a leading digit token selects one axis,
otherwise the first token is the state keyword (compared with
`strcasecmp`); an axis outside `[1,5]` switches all five drivers. -/
def enaAction (st : FirmwareState) (args : List (List Char)) :
    FirmwareState × List Ev :=
  match args with
  | [] => (st, [])
  | pm :: rest =>
    let firstDigit := (pm.head?.map Char.isDigit).getD false
    let m : ℤ := if firstDigit then atoi16 pm else 0
    let pstate := if firstDigit then rest.head? else some pm
    match pstate with
    | none => (st, [])
    | some ps =>
      let u := ps.map ardToUpper
      let turnOn := u = "ON".toList
      let turnOff := u = "OFF".toList
      if ¬(turnOn ∨ turnOff) then (st, [])
      else if 1 ≤ m ∧ m ≤ 5 then
        ({ st with enaHigh := st.enaHigh.set (m.toNat - 1) (!turnOn) },
         [if turnOn then Ev.enaOnMsg m.toNat else Ev.enaOffMsg m.toNat])
      else
        ({ st with enaHigh := List.replicate 5 (!turnOn) },
         [Ev.enaAllMsg turnOn])

/-- Dispatch over the `strtok` tokens of the (63-character-truncated)
line: the case-sensitive `strcmp` keyword chain of `parseAndExec`. -/
def execTokens (a : ℕ → Bool) (st : FirmwareState)
    (toks : List (List Char)) : FirmwareState × List Ev :=
  match toks with
  | [] => (st, [])
  | cmd :: args =>
    if cmd = "M".toList then
      match args.head? with
      | some p =>
        let m := atoi16 p
        if 1 ≤ m ∧ m ≤ 5 then
          ({ st with aktifMotor := m.toNat
                     enaHigh := st.enaHigh.set (m.toNat - 1) false },
           [Ev.motorSel m.toNat])
        else (st, [])
      | none => (st, [])
    else if cmd = "ENA".toList then enaAction st args
    else if cmd = "STOP".toList then stopAction st args
    else if cmd = "STATUS".toList then
      (st, [1, 2, 3, 4, 5].map fun i =>
        Ev.statusMsg i (!(st.enaHigh.getD (i - 1) true))
          (decide (st.movingMotor = i)))
    else if cmd = "A".toList then
      match args.head? with
      | some p =>
        let v := atofQ p
        ({ st with setAngleDeg := v }, [Ev.angleMsg v])
      | none => (st, [])
    else if cmd = "V".toList then
      match args.head? with
      | some p =>
        let v0 := atofQ p
        let v := if v0 ≤ 0 then 1 else v0
        ({ st with setSpeedDPS := v }, [Ev.speedMsg v])
      | none => (st, [])
    else if cmd = "S".toList then
      match args.head? with
      | some p =>
        let spr := toUInt32n (atol32 p)
        if 50 ≤ spr ∧ spr ≤ 200000 then
          ({ st with stepsPerRev := st.stepsPerRev.set (st.aktifMotor - 1) spr },
           [Ev.sprMsg st.aktifMotor spr])
        else (st, [])
      | none => (st, [])
    else if cmd = "RAMP".toList then
      match args.head? with
      | some p =>
        let v0 := atoi16 p
        let v1 := if v0 < 0 then 0 else v0
        let v2 := if v1 > 5000 then 5000 else v1
        ({ st with rampMs := v2.toNat }, [Ev.rampMsg v2.toNat])
      | none => (st, [])
    else if cmd = "PAUSE".toList then
      match args.head? with
      | some p =>
        let v0 := atoi16 p
        let v1 := if v0 < 0 then 0 else v0
        ({ st with pauseMs := v1.toNat }, [Ev.pauseMsg v1.toNat])
      | none => (st, [])
    else if cmd = "REP".toList then
      match args.head? with
      | some p =>
        let v0 := atoi16 p
        let v1 := if v0 < 1 then 1 else v0
        let v2 := if v1 > 200 then 200 else v1
        ({ st with repeats := v2.toNat }, [Ev.repMsg v2.toNat])
      | none => (st, [])
    else if cmd = "MOVE".toList then
      match args with
      | pm :: pd :: pv :: _ =>
        let m := atoi16 pm
        let deg := atofQ pd
        let dps := atofQ pv
        if 1 ≤ m ∧ m ≤ 5 ∧ 0 < dps then
          let r := execMove a st m.toNat deg dps
          (r.1, r.2.1)
        else (st, [])
      | _ => (st, [])
    else if cmd = "TEST".toList then
      match args with
      | pm :: pd :: pv :: pr :: pp :: _ =>
        let m := atoi16 pm
        let deg := atofQ pd
        let dps := atofQ pv
        let rep := atoi16 pr
        let _pms := atoi16 pp
        if 1 ≤ m ∧ m ≤ 5 ∧ 0 < dps ∧ 1 ≤ rep then
          let r := execTest a st m.toNat deg dps rep.toNat
          (r.1, r.2.1)
        else (st, [])
      | _ => (st, [])
    else (st, [Ev.unknownMsg])

/-- `parseAndExec(line)`: trims the line, matches the six single-word
commands against the whole line uppercased, and otherwise copies the
line into the 64-byte `strtok` buffer (keeping only its first 63
characters) and dispatches on the tokens. -/
def parseAndExec (a : ℕ → Bool) (st : FirmwareState) (line : String) :
    FirmwareState × List Ev :=
  let l := arduinoTrim line.toList
  if l = [] then (st, [])
  else
    let u := l.map ardToUpper
    if u = "HELP".toList ∨ u = "?".toList then (st, [Ev.helpMsg])
    else if u = "SHOW".toList then (st, [Ev.showMsg])
    else if u = "G".toList then
      let r := moveWithProfile a st st.aktifMotor |st.setAngleDeg|
        st.setSpeedDPS st.rampMs 0
      (r.1, r.2.1)
    else if u = "ABORT".toList then
      ({ st with abortRequested := true
                 enaHigh := List.replicate 5 true
                 movingMotor := 0 }, [Ev.abortMsg])
    else if u = "Q".toList then
      let r := qLoop a st.repeats st 0
      (r.1, r.2.1)
    else execTokens a st (tokenize (l.take 63))

/-- Whether the whole (trimmed, uppercased) line is one of the six
single-word commands that are matched before tokenization. -/
def isWordCmd (line : String) : Bool :=
  let u := (arduinoTrim line.toList).map ardToUpper
  u = "HELP".toList ∨ u = "?".toList ∨ u = "SHOW".toList ∨
    u = "G".toList ∨ u = "ABORT".toList ∨ u = "Q".toList

/-- A monotone abort schedule: the flag, once observed set, stays set
(the firmware only clears it at the start of a move, before the loop). -/
def MonoSched (a : ℕ → Bool) : Prop :=
  ∀ i j, i ≤ j → a i = true → a j = true

lemma runSeg_snd_ge (a : ℕ → Bool) :
    ∀ (ds : List ℕ) (t : ℕ), t + (runSeg a t ds).1.length ≤ (runSeg a t ds).2 := by
  intro ds
  induction ds with
  | nil => intro t; simp [runSeg]
  | cons d ds ih =>
    intro t
    by_cases h : a t = true
    · simp [runSeg, h]
    · simp only [runSeg, h, if_false, Bool.false_eq_true]
      have := ih (t + 1)
      simp only [List.length_cons]
      omega

lemma runSeg_len_min {a : ℕ → Bool} {T : ℕ} (hmono : MonoSched a)
    (hT : a T = true) :
    ∀ (ds : List ℕ) (t : ℕ), (runSeg a t ds).1.length + min t T ≤ T := by
  intro ds
  induction ds with
  | nil =>
    intro t
    simp [runSeg]
  | cons d ds ih =>
    intro t
    by_cases h : a t = true
    · simp [runSeg, h]
    · have ht : t < T := by
        rcases Nat.lt_or_ge t T with h1 | h1
        · exact h1
        · exact absurd (hmono T t h1 hT) h
      simp only [runSeg, h, if_false, Bool.false_eq_true, List.length_cons]
      have := ih (t + 1)
      omega

lemma runSegs_len_min {a : ℕ → Bool} {T : ℕ} (hmono : MonoSched a)
    (hT : a T = true) :
    ∀ (segs : List (List ℕ)) (t : ℕ),
      (runSegs a t segs).1.length + min t T ≤ T := by
  intro segs
  induction segs with
  | nil =>
    intro t
    simp [runSegs]
  | cons seg rest ih =>
    intro t
    simp only [runSegs, List.length_append]
    have hA := runSeg_len_min hmono hT seg t
    have hB := ih (runSeg a t seg).2
    have hC := runSeg_snd_ge a seg t
    rcases le_or_lt (runSeg a t seg).2 T with hle | hlt
    · have := Nat.min_eq_left hle
      omega
    · have := Nat.min_eq_right (Nat.le_of_lt hlt)
      omega

lemma runSeg_never (ds : List ℕ) :
    ∀ t, runSeg neverAbort t ds = (ds, t + ds.length) := by
  induction ds with
  | nil => intro t; simp [runSeg]
  | cons d ds ih =>
    intro t
    simp [runSeg, neverAbort, ih]
    omega

lemma runSegs_never_fst (segs : List (List ℕ)) :
    ∀ t, (runSegs neverAbort t segs).1 = segs.flatten := by
  induction segs with
  | nil => intro t; simp [runSegs]
  | cons seg rest ih =>
    intro t
    simp [runSegs, runSeg_never, ih]

lemma countPulses_nil : countPulses [] = 0 := rfl

lemma countPulses_trace (m : ℕ) (ds : List ℕ) :
    countPulses (Ev.movingStart m :: (ds.map (Ev.pulse m) ++ [Ev.movingEnd m])) =
      ds.length := by
  induction ds with
  | nil => rfl
  | cons d ds ih =>
    simpa [countPulses, List.filter] using ih

lemma rampStepsClamped_two_le (total tgt ramp : ℕ) :
    rampStepsClamped total tgt ramp * 2 ≤ total := by
  have h : rampStepsClamped total tgt ramp =
      if rampStepsRaw tgt ramp * 2 > total then total / 2
      else rampStepsRaw tgt ramp := rfl
  rw [h]
  split <;> omega

lemma motionProfile_length (total tgt ramp : ℕ) :
    (motionProfile total tgt ramp).length = total := by
  unfold motionProfile profileSegments
  split
  · simp
  · have h2 := rampStepsClamped_two_le total tgt ramp
    simp [accelList, decelList]
    omega

lemma moveWithProfile_zero (a : ℕ → Bool) (st : FirmwareState) (m : ℕ)
    (deg dps : ℚ) (ramp t0 : ℕ) (h : degToSteps st m deg = 0) :
    moveWithProfile a st m deg dps ramp t0 = (st, [], t0) := by
  simp [moveWithProfile, h]

lemma moveWithProfile_trace (a : ℕ → Bool) (st : FirmwareState) (m : ℕ)
    (deg dps : ℚ) (ramp t0 : ℕ) (h : degToSteps st m deg ≠ 0) :
    (moveWithProfile a st m deg dps ramp t0).2.1 =
      Ev.movingStart m ::
        (((runSegs a t0 (profileSegments (degToSteps st m deg)
            (dpsToDelayUs (sprOf st m) dps) ramp)).1).map (Ev.pulse m) ++
          [Ev.movingEnd m]) := by
  simp [moveWithProfile, h]

lemma moveWithProfile_movingMotor (a : ℕ → Bool) (st : FirmwareState)
    (m : ℕ) (deg dps : ℚ) (ramp t0 : ℕ) (h : degToSteps st m deg ≠ 0) :
    (moveWithProfile a st m deg dps ramp t0).1.movingMotor = 0 := by
  simp [moveWithProfile, h]

lemma moveWithProfile_aktif (a : ℕ → Bool) (st : FirmwareState) (m : ℕ)
    (deg dps : ℚ) (ramp t0 : ℕ) :
    (moveWithProfile a st m deg dps ramp t0).1.aktifMotor = st.aktifMotor := by
  by_cases h : degToSteps st m deg = 0
  · simp [moveWithProfile, h]
  · simp [moveWithProfile, h]

lemma moveWithProfile_never_abortFlag (st : FirmwareState) (m : ℕ)
    (deg dps : ℚ) (ramp t0 : ℕ) (h : st.abortRequested = false) :
    (moveWithProfile neverAbort st m deg dps ramp t0).1.abortRequested = false := by
  by_cases hz : degToSteps st m deg = 0
  · simp [moveWithProfile, hz, h]
  · simp [moveWithProfile, hz, neverAbort]

/-- C1: during `moveWithProfile` the abort flag is read immediately
before every pulse; for a started move (nonzero step count) under a
monotone abort schedule that is set from read index `T` on, at most `T`
pulses are emitted, the final `movingMotor` is 0, and the
`MOVING M<n> END` line is still emitted. -/
theorem claim1_abort_law (a : ℕ → Bool) (st : FirmwareState) (m : ℕ)
    (deg dps : ℚ) (ramp T : ℕ) (hmono : MonoSched a) (hT : a T = true)
    (hnz : degToSteps st m deg ≠ 0) :
    countPulses (moveWithProfile a st m deg dps ramp 0).2.1 ≤ T ∧
    (moveWithProfile a st m deg dps ramp 0).1.movingMotor = 0 ∧
    Ev.movingEnd m ∈ (moveWithProfile a st m deg dps ramp 0).2.1 := by
  refine ⟨?_, moveWithProfile_movingMotor a st m deg dps ramp 0 hnz, ?_⟩
  · rw [moveWithProfile_trace a st m deg dps ramp 0 hnz, countPulses_trace]
    have key := runSegs_len_min hmono hT
      (profileSegments (degToSteps st m deg) (dpsToDelayUs (sprOf st m) dps) ramp) 0
    omega
  · rw [moveWithProfile_trace a st m deg dps ramp 0 hnz]
    simp

/-- Witness for C1 at a concrete input: schedule set from read 3 on,
default state, motor 1, 90°, 90 dps, no ramp (400 planned steps). -/
theorem claim1_abort_law_witness :
    countPulses (moveWithProfile (fun t => decide (3 ≤ t)) initialState 1
      90 90 0 0).2.1 ≤ 3 ∧
    (moveWithProfile (fun t => decide (3 ≤ t)) initialState 1 90 90 0 0).1.movingMotor = 0 ∧
    Ev.movingEnd 1 ∈ (moveWithProfile (fun t => decide (3 ≤ t)) initialState 1
      90 90 0 0).2.1 :=
  claim1_abort_law (fun t => decide (3 ≤ t)) initialState 1 90 90 0 3
    (fun i j hij hi => by
      simp only [decide_eq_true_eq] at hi ⊢
      omega)
    (by decide)
    (by norm_num [degToSteps, qround, qfloor, sprOf, initialState])

/-- C3: the generated per-step delay sequence has length exactly
`totalSteps`; in the trapezoidal branch the clamped `rampSteps`
satisfies `2*rampSteps ≤ totalSteps`; and an uninterrupted move emits
exactly `degToSteps` pulses. -/
theorem claim3_profile_length (total tgt ramp : ℕ) (st : FirmwareState)
    (m : ℕ) (deg dps : ℚ) (_htgt : 0 < tgt) :
    (motionProfile total tgt ramp).length = total ∧
    (ramp ≠ 0 → ¬total < 10 → 2 * rampStepsClamped total tgt ramp ≤ total) ∧
    countPulses (moveWithProfile neverAbort st m deg dps ramp 0).2.1 =
      degToSteps st m deg := by
  refine ⟨motionProfile_length total tgt ramp, ?_, ?_⟩
  · intro _ _
    have := rampStepsClamped_two_le total tgt ramp
    omega
  · by_cases hz : degToSteps st m deg = 0
    · rw [moveWithProfile_zero neverAbort st m deg dps ramp 0 hz, hz]
      rfl
    · rw [moveWithProfile_trace neverAbort st m deg dps ramp 0 hz,
        countPulses_trace, runSegs_never_fst]
      exact motionProfile_length _ _ _

/-- Witness for C3 at a concrete input. -/
theorem claim3_profile_length_witness :
    (motionProfile 100 1000 50).length = 100 ∧
    (50 ≠ 0 → ¬(100:ℕ) < 10 → 2 * rampStepsClamped 100 1000 50 ≤ 100) ∧
    countPulses (moveWithProfile neverAbort initialState 1 45 90 50 0).2.1 =
      degToSteps initialState 1 45 :=
  claim3_profile_length 100 1000 50 initialState 1 45 90 (by decide)

/-- C4: a move whose computed step count is 0 is a complete no-op: the
state (including `movingMotor`, `abortRequested`, ENA and DIR levels) is
unchanged and no event (pulse or status line) is emitted. -/
theorem claim4_zero_steps_noop (a : ℕ → Bool) (st : FirmwareState)
    (m : ℕ) (deg dps : ℚ) (ramp t0 : ℕ) (h : degToSteps st m deg = 0) :
    moveWithProfile a st m deg dps ramp t0 = (st, [], t0) :=
  moveWithProfile_zero a st m deg dps ramp t0 h

/-- Witness for C4: angle 0 on the default state computes 0 steps. -/
theorem claim4_zero_steps_noop_witness :
    degToSteps initialState 1 0 = 0 ∧
    moveWithProfile neverAbort initialState 1 0 90 0 0 = (initialState, [], 0) :=
  ⟨by norm_num [degToSteps, qround, qfloor, sprOf, initialState],
   claim4_zero_steps_noop neverAbort initialState 1 0 90 0 0
     (by norm_num [degToSteps, qround, qfloor, sprOf, initialState])⟩

/-- C2 (divergence witness): keyword matching is case-sensitive for the
tokenized commands. The uppercased copy of the line is only consulted
for the six single-word commands (so `show` works), while `stop 2` and
`move 3 45 90` fall through every `strcmp` and print the
unknown-command message with no state change, unlike `STOP 2`. -/
theorem claim2_lowercase_keyword_eval :
    parseAndExec neverAbort initialState "stop 2" =
      (initialState, [Ev.unknownMsg]) ∧
    parseAndExec neverAbort initialState "move 3 45 90" =
      (initialState, [Ev.unknownMsg]) ∧
    (parseAndExec neverAbort initialState "STOP 2").2 = [Ev.stopMMsg 2] ∧
    (parseAndExec neverAbort initialState "STOP 2").1.enaHigh =
      [false, true, false, false, false] ∧
    parseAndExec neverAbort initialState "show" =
      (initialState, [Ev.showMsg]) := by
  refine ⟨by decide, by decide, by decide, by decide, by decide⟩

/-- C5 (divergence witness): `RAMP 99999` wraps in the 16-bit `atoi`
(`99999 → -31073`), the negative value clamps to 0, so `rampMs`
becomes 0 rather than 5000; in-range values such as `RAMP 6000` clamp
to 5000 as specified, `REP 0` clamps to 1, and `S 10` is rejected with
no change to the axis steps/rev. -/
theorem claim5_clamp_eval :
    atoi16 "99999".toList = -31073 ∧
    (parseAndExec neverAbort initialState "RAMP 99999").1.rampMs = 0 ∧
    (parseAndExec neverAbort initialState "RAMP 6000").1.rampMs = 5000 ∧
    (parseAndExec neverAbort initialState "REP 0").1.repeats = 1 ∧
    (parseAndExec neverAbort initialState "S 10").1.stepsPerRev =
      initialState.stepsPerRev := by
  refine ⟨by decide, by decide, by decide, by decide, by decide⟩

/-- C6 counterexample: `STOP 7` (motor argument outside `[1,5]`) is not
treated as the no-motor form: it does nothing at all (no abort request,
no driver disabled, no output), while plain `STOP` aborts and disables
everything. -/
theorem claim6_counterexample :
    parseAndExec neverAbort initialState "STOP 7" ≠
      parseAndExec neverAbort initialState "STOP" ∧
    parseAndExec neverAbort initialState "STOP 7" = (initialState, []) ∧
    (parseAndExec neverAbort initialState "STOP").1.abortRequested = true ∧
    (parseAndExec neverAbort initialState "STOP").1.enaHigh =
      [true, true, true, true, true] := by
  refine ⟨by decide, by decide, by decide, by decide⟩

/-- C6 amended: `STOP <m>` with a motor argument outside `[1,5]` is
ignored entirely — no abort request, no driver change, no output
(only the argument-free `STOP` performs the abort-all form). -/
theorem claim6_amended (st : FirmwareState) (tok : List Char)
    (rest : List (List Char))
    (h : ¬(1 ≤ atoi16 tok ∧ atoi16 tok ≤ 5)) :
    stopAction st (tok :: rest) = (st, []) := by
  simp [stopAction, h]

/-- Witness for the amended C6 at the concrete token `7`. -/
theorem claim6_amended_witness :
    ¬(1 ≤ atoi16 "7".toList ∧ atoi16 "7".toList ≤ 5) ∧
    stopAction initialState ["7".toList] = (initialState, []) :=
  ⟨by decide, claim6_amended initialState "7".toList [] (by decide)⟩

/-- A `RAMP` line whose numeric argument starts only at character 63:
`"RAMP"`, 59 spaces, then the given suffix (66 characters for a
3-character suffix, well under the 120-character transport limit). -/
def ramp59 (suffix : String) : String :=
  "RAMP" ++ String.mk (List.replicate 59 ' ') ++ suffix

/-- C9 counterexample: two distinct lines of ≤ 120 characters that agree
only on their first 63 characters are parsed identically — the
interpreter copies the line into its 64-byte `strtok` buffer, so the
numeric argument beyond character 63 is dropped and `rampMs` is not
set at all (it stays 0 instead of becoming 100 or 200). -/
theorem claim9_counterexample :
    ramp59 "100" ≠ ramp59 "200" ∧
    (ramp59 "100").length ≤ 120 ∧
    (ramp59 "200").length ≤ 120 ∧
    parseAndExec neverAbort initialState (ramp59 "100") =
      parseAndExec neverAbort initialState (ramp59 "200") ∧
    (parseAndExec neverAbort initialState (ramp59 "100")).1.rampMs = 0 ∧
    parseAndExec neverAbort initialState "RAMP 100" ≠
      parseAndExec neverAbort initialState "RAMP 200" := by
  refine ⟨by decide, by decide, by decide, by decide, by decide, by decide⟩

lemma parseAndExec_tokens (a : ℕ → Bool) (st : FirmwareState)
    (line : String) (hne : arduinoTrim line.toList ≠ [])
    (hw : isWordCmd line = false) :
    parseAndExec a st line =
      execTokens a st (tokenize ((arduinoTrim line.toList).take 63)) := by
  have hw' := of_decide_eq_false hw
  push_neg at hw'
  obtain ⟨h1, h2, h3, h4, h5, h6⟩ := hw'
  simp only [parseAndExec]
  rw [if_neg hne, if_neg (not_or.mpr ⟨h1, h2⟩), if_neg h3, if_neg h4,
    if_neg h5, if_neg h6]

/-- C9 amended: the interpreter tokenizes only the first 63 characters
of the (trimmed) line — the `char buf[64]` copy; two non-single-word
lines whose trimmed forms agree on those characters have identical
effect regardless of what follows. Lines whose trimmed form fits in 63
characters are still parsed in full. -/
theorem claim9_amended (a : ℕ → Bool) (st : FirmwareState)
    (l1 l2 : String)
    (htake : (arduinoTrim l1.toList).take 63 = (arduinoTrim l2.toList).take 63)
    (hw1 : isWordCmd l1 = false) (hw2 : isWordCmd l2 = false) :
    parseAndExec a st l1 = parseAndExec a st l2 := by
  by_cases he : arduinoTrim l1.toList = []
  · have he2 : arduinoTrim l2.toList = [] := by
      rw [he] at htake
      simp only [List.take_nil] at htake
      rcases (List.take_eq_nil_iff).mp htake.symm with h | h
      · exact absurd h (by norm_num)
      · exact h
    simp only [parseAndExec]
    rw [if_pos he, if_pos he2]
  · have he2 : arduinoTrim l2.toList ≠ [] := by
      intro hc
      rw [hc] at htake
      simp only [List.take_nil] at htake
      rcases (List.take_eq_nil_iff).mp htake with h | h
      · exact absurd h (by norm_num)
      · exact he h
    rw [parseAndExec_tokens a st l1 he hw1, parseAndExec_tokens a st l2 he2 hw2,
      htake]

/-- Witness for the amended C9: the two counterexample lines agree on
their first 63 characters and are parsed identically. -/
theorem claim9_amended_witness :
    (arduinoTrim (ramp59 "100").toList).take 63 =
      (arduinoTrim (ramp59 "200").toList).take 63 ∧
    isWordCmd (ramp59 "100") = false ∧
    isWordCmd (ramp59 "200") = false ∧
    parseAndExec neverAbort initialState (ramp59 "100") =
      parseAndExec neverAbort initialState (ramp59 "200") :=
  ⟨by decide, by decide, by decide,
   claim9_amended neverAbort initialState (ramp59 "100") (ramp59 "200")
     (by decide) (by decide) (by decide)⟩

/-- The C7 spec formula as stated: delay = round(1e6 / stepsPerSecond),
with `stepsPerSecond = max(1, dps_clamped * stepsPerRev / 360)` and a
2 µs floor. -/
def dpsToDelayUsSpecRound (spr : ℕ) (dps : ℚ) : ℕ :=
  let dpsC : ℚ := if dps ≤ 0 then 1 else dps
  let sps : ℚ := max 1 (dpsC * ((spr : ℚ) / 360))
  max 2 (qround (1000000 / sps))

/-- The C7 spec formula amended: the final conversion truncates
(floors) instead of rounding, as the C `(uint32_t)` cast does. -/
def dpsToDelayUsSpecTrunc (spr : ℕ) (dps : ℚ) : ℕ :=
  let dpsC : ℚ := if dps ≤ 0 then 1 else dps
  let sps : ℚ := max 1 (dpsC * ((spr : ℚ) / 360))
  max 2 (qfloor (1000000 / sps))

lemma if_lt_one_eq_max (s : ℚ) : (if s < 1 then (1 : ℚ) else s) = max 1 s := by
  rcases lt_or_le s 1 with h | h
  · rw [if_pos h, max_eq_left h.le]
  · rw [if_neg (not_lt.mpr h), max_eq_right h]

lemma qfloor_if_lt_two (p : ℚ) (hp : 0 ≤ p) :
    qfloor (if p < 2 then 2 else p) = max 2 (qfloor p) := by
  rcases lt_or_le p 2 with h | h
  · rw [if_pos h]
    have h1 : ⌊p⌋ < 2 := by
      rw [Int.floor_lt]
      exact_mod_cast h
    have h0 : (0 : ℤ) ≤ ⌊p⌋ := Int.floor_nonneg.mpr hp
    have hle : qfloor p ≤ 2 := by unfold qfloor; omega
    have h2 : qfloor (2 : ℚ) = 2 := by
      norm_num [qfloor]
      decide
    rw [h2, max_eq_left hle]
  · rw [if_neg (not_lt.mpr h)]
    have h2 : (2 : ℤ) ≤ ⌊p⌋ := by
      rw [Int.le_floor]
      exact_mod_cast h
    have hle : 2 ≤ qfloor p := by unfold qfloor; omega
    rw [max_eq_right hle]

/-- C7 counterexample: at 7 dps on the default 1600 steps/rev the exact
period is 225000/7 ≈ 32142.857 µs; the code truncates to 32142 while
the spec formula with `round` yields 32143. -/
theorem claim7_counterexample :
    dpsToDelayUs 1600 7 = 32142 ∧
    dpsToDelayUsSpecRound 1600 7 = 32143 ∧
    dpsToDelayUs 1600 7 ≠ dpsToDelayUsSpecRound 1600 7 := by
  refine ⟨?_, ?_, ?_⟩ <;>
    norm_num [dpsToDelayUs, dpsToDelayUsSpecRound, qround, qfloor] <;> decide

/-- C8 counterexample: for an odd target delay of 5 µs the code computes
`(uint32_t)(5 * 1.5f) = 7` (and `7 < 5 + 2` does not raise it), while
the spec formula `max(5+2, round(7.5)) = 8`. -/
theorem claim8_counterexample :
    startDelayUs 5 = 7 ∧
    max (5 + 2) (qround ((5 : ℚ) * (3 / 2))) = 8 ∧
    startDelayUs 5 ≠ max (5 + 2) (qround ((5 : ℚ) * (3 / 2))) := by
  refine ⟨?_, ?_, ?_⟩ <;>
    norm_num [startDelayUs, qround, qfloor] <;> decide

/-- C7 amended: for every steps/rev and speed, `dpsToDelayUs` equals the
spec formula with the rounding replaced by truncation:
`max 2 (floor(1e6 / max(1, dps_clamped * stepsPerRev / 360)))`. -/
theorem claim7_amended (spr : ℕ) (dps : ℚ) :
    dpsToDelayUs spr dps = dpsToDelayUsSpecTrunc spr dps := by
  simp only [dpsToDelayUs, dpsToDelayUsSpecTrunc]
  rw [if_lt_one_eq_max]
  apply qfloor_if_lt_two
  apply div_nonneg (by norm_num)
  exact le_trans zero_le_one (le_max_left _ _)

/-- C8 amended: the trapezoidal start delay is
`max(targetDelayUs + 2, floor(targetDelayUs * 1.5))` — truncation, not
rounding; in particular it is always at least 2 µs above the target. -/
theorem claim8_amended (tgt : ℕ) :
    startDelayUs tgt = max (tgt + 2) (3 * tgt / 2) := by
  have hfl : qfloor ((tgt : ℚ) * (3 / 2)) = 3 * tgt / 2 := by
    have hc : ((tgt : ℚ) * (3 / 2)) = ((3 * tgt : ℕ) : ℚ) / ((2 : ℕ) : ℚ) := by
      push_cast
      ring
    rw [qfloor, hc, Int.floor_toNat, Nat.floor_div_nat, Nat.floor_natCast]
  simp only [startDelayUs]
  rw [hfl]
  rcases lt_or_le (3 * tgt / 2) (tgt + 2) with h | h
  · rw [if_pos h, max_eq_left h.le]
  · rw [if_neg (not_lt.mpr h), max_eq_right h]

lemma testLoop_inv (m : ℕ) (deg dps : ℚ) (ramp : ℕ) :
    ∀ (k : ℕ) (st : FirmwareState) (t : ℕ),
      st.aktifMotor = m → st.abortRequested = false →
      (testLoop neverAbort m deg dps ramp k st t).1.aktifMotor = m ∧
      (testLoop neverAbort m deg dps ramp k st t).1.abortRequested = false := by
  intro k
  induction k with
  | zero =>
    intro st t h1 h2
    exact ⟨h1, h2⟩
  | succ k ih =>
    intro st t h1 h2
    simp only [testLoop, neverAbort, Bool.false_eq_true, if_false]
    apply ih
    · rw [moveWithProfile_aktif, moveWithProfile_aktif]
      exact h1
    · apply moveWithProfile_never_abortFlag
      apply moveWithProfile_never_abortFlag
      exact h2

/-- C10: every accepted `MOVE m deg dps` and every accepted
`TEST m deg dps rep pause` (to which `parseAndExec` dispatches via
`execMove`/`execTest`) also selects axis `m` as the session's active
motor and clears `abortRequested` before moving — observable here as
the post-state of an undisturbed run having `aktifMotor = m` and
`abortRequested = false` whatever they were before. -/
theorem claim10_move_test_frame (st : FirmwareState) (m : ℕ)
    (deg dps : ℚ) (rep : ℕ) (_hm1 : 1 ≤ m) (_hm5 : m ≤ 5)
    (_hdps : 0 < dps) (_hrep : 1 ≤ rep) :
    (execMove neverAbort st m deg dps).1.aktifMotor = m ∧
    (execMove neverAbort st m deg dps).1.abortRequested = false ∧
    (execTest neverAbort st m deg dps rep).1.aktifMotor = m ∧
    (execTest neverAbort st m deg dps rep).1.abortRequested = false := by
  refine ⟨?_, ?_, ?_, ?_⟩
  · rw [execMove, moveWithProfile_aktif]
  · rw [execMove]
    exact moveWithProfile_never_abortFlag _ m deg dps st.rampMs 0 rfl
  · exact (testLoop_inv m deg dps st.rampMs rep _ 0 rfl rfl).1
  · exact (testLoop_inv m deg dps st.rampMs rep _ 0 rfl rfl).2

/-- Witness for C10 at a concrete accepted command
(`MOVE 2 45 90` / `TEST 2 45 90 1 ...` from the default state). -/
theorem claim10_move_test_frame_witness :
    (execMove neverAbort initialState 2 45 90).1.aktifMotor = 2 ∧
    (execMove neverAbort initialState 2 45 90).1.abortRequested = false ∧
    (execTest neverAbort initialState 2 45 90 1).1.aktifMotor = 2 ∧
    (execTest neverAbort initialState 2 45 90 1).1.abortRequested = false :=
  claim10_move_test_frame initialState 2 45 90 1 (by decide) (by decide)
    (by norm_num) (by decide)
